import Mathlib

/-!
Verification development for the Pinia devtools bridge (`src/unnamed/part_000`)
and the map helpers (`src/src/mapHelpers.ts`).

The devtools bridge is embedded as a state machine over `BridgeState`, whose
fields mirror the module-level mutable variables of the source file
(`registeredStores`, `componentStateTypes`, `isAlreadyInstalled`,
`isTimelineActive`, `runningActionId`, `activeAction`), plus explicit logs for
the events, toasts and inspector pushes the code sends to the host devtools
API.  JavaScript values are modelled by the inductive `JsValue`; JavaScript
objects used as string-keyed maps are association lists.
-/

namespace Pinia

/-- A JavaScript value, as far as the claims need one. -/
inductive JsValue where
  | num (n : Int)
  | str (s : String)
  | boolean (b : Bool)
  | null
deriving DecidableEq, Repr

/-- Association-list lookup for string-keyed JavaScript objects / `Map`s. -/
def alookup {α : Type} (l : List (String × α)) (k : String) : Option α :=
  match l with
  | [] => none
  | (k', v) :: rest => if k' = k then some v else alookup rest k

/-- Association-list write: `obj[k] = v` (replace an existing binding, else
append). -/
def aset {α : Type} (l : List (String × α)) (k : String) (v : α) :
    List (String × α) :=
  match l with
  | [] => [(k, v)]
  | (k', v') :: rest => if k' = k then (k, v) :: rest else (k', v') :: aset rest k v

/-- `sub.isPrefixOf hay` on character lists, written out so its
characterisation can be proved without any library string machinery. -/
def startsWithL : List Char → List Char → Bool
  | [], _ => true
  | _ :: _, [] => false
  | a :: as, b :: bs => a = b && startsWithL as bs

/-- JavaScript `hay.includes(sub)`: `sub` occurs contiguously in `hay`. -/
def includesL (hay sub : List Char) : Bool :=
  match hay with
  | [] => startsWithL sub []
  | _ :: rest => startsWithL sub hay || includesL rest sub

/-- JavaScript `s.includes(sub)` on strings. -/
def jsIncludes (s sub : String) : Bool :=
  includesL s.data sub.data

/-- JavaScript `s.toLowerCase()`, as character-wise lowercasing. -/
def jsToLower (s : String) : String :=
  String.mk (s.data.map Char.toLower)

/-- Severity accepted by `toastMessage` (`'normal' | 'error' | 'warning'`). -/
inductive TType where
  | normal
  | error
  | warning
deriving DecidableEq, Repr

/-- One toast/log emission.  `toastMessage` (part_000 lines 365-380) prepends
the pine emblem and dispatches on the severity; the dispatch only selects the
output channel (toast host, `console.error`, `console.warn`, `console.log`),
so the model records the prefixed message together with the severity the call
site passed. -/
structure Toast where
  message : String
  ttype : Option TType
deriving DecidableEq, Repr

/-- `toastMessage(message, type)` (part_000 lines 365-380). -/
def toastMessage (message : String) (ttype : Option TType) : Toast :=
  { message := "🍍 " ++ message, ttype := ttype }

/-- Mutation kinds of the store contract (`MutationType` in the source). -/
inductive MutationType where
  | direct
  | patchObject
  | patchFunction
deriving DecidableEq, Repr

/-- One raw reactivity debugger event; the mutation callback only inspects its
`type` field (part_000 line 275). -/
structure DebuggerEvent where
  etype : String
deriving DecidableEq, Repr

/-- `mutation.events` as received by the `$subscribe` callback: absent, a
single event object, or an array of events. -/
inductive MutEvents where
  | single (e : DebuggerEvent)
  | array (es : List DebuggerEvent)
deriving DecidableEq, Repr

/-- The formatted `data` payload of a timeline event.  `formatDisplay` and
`formatEventData` live in the formatting module, which is not among the
sources; the model keeps the raw inputs they format. -/
inductive EventData where
  | actionStart (action : String) (args : List JsValue)
  | actionEnd (action : String) (args : List JsValue) (result : JsValue)
  | actionError (action : String) (args : List JsValue) (error : JsValue)
  | mutation (events : Option MutEvents)
deriving DecidableEq, Repr

/-- A timeline event as passed to `api.addTimelineEvent` (the `time` field is
wall-clock noise and is not modelled). -/
structure TimelineEvent where
  layerId : String
  title : String
  subtitle : Option String
  logType : Option String
  data : EventData
  groupId : Option Nat
deriving DecidableEq, Repr

/-- A store as the devtools bridge sees it: its `$id` and its `$state`,
the latter as a flat key-value object. -/
structure StoreData where
  id : String
  state : List (String × JsValue)
deriving DecidableEq, Repr

def MUTATIONS_LAYER_ID : String := "pinia:mutations"

def INSPECTOR_ID : String := "pinia"

/-- The module-level mutable state of part_000 plus logs of the outputs sent
to the devtools host. `subscribed` records the store ids for which the
`$onAction` / `$subscribe` callbacks (part_000 lines 200-293) have been
installed; `inspectorRefreshes` counts `sendInspectorTree` /
`sendInspectorState` / `notifyComponentUpdate` pushes. -/
structure BridgeState where
  registeredStores : List (String × StoreData)
  componentStateTypes : List String
  isAlreadyInstalled : Bool
  isTimelineActive : Bool
  runningActionId : Nat
  activeAction : Option Nat
  timeline : List TimelineEvent
  toasts : List Toast
  subscribed : List String
  inspectorRefreshes : Nat
deriving DecidableEq, Repr

/-- The state at module load: empty registry, timeline active, action counter
at zero, no active action, devtools not yet installed. -/
def initialBridgeState : BridgeState :=
  { registeredStores := []
    componentStateTypes := []
    isAlreadyInstalled := false
    isTimelineActive := true
    runningActionId := 0
    activeAction := none
    timeline := []
    toasts := []
    subscribed := []
    inspectorRefreshes := 0 }

/-- `addDevtools(app, store)` (part_000 lines 32-301).

Lines 36-41: `hasSubscribed` is initialised to `true`, and the
first-registration branch assigns `true` to it again, so it is `true` on
every path.  The setup callback (lines 53-299) installs the timeline layer,
inspector and handlers on the first run (`isAlreadyInstalled` flips to
`true`); later runs instead push a tree/state refresh.  Line 198
(`if (hasSubscribed) return`) then returns before `store.$onAction` /
`store.$subscribe` (lines 200-293) and the final `notifyComponentUpdate` /
"store installed" toast (lines 297-298); the skipped tail is embedded
faithfully in the `else` branch. -/
def addDevtools (store : StoreData) (st : BridgeState) : BridgeState :=
  let hasSubscribed := true
  let reg :=
    if (alookup st.registeredStores store.id).isSome then (st, hasSubscribed)
    else
      ({ st with
          registeredStores := st.registeredStores ++ [(store.id, store)]
          componentStateTypes := st.componentStateTypes ++ ["🍍 " ++ store.id] },
        true)
  let st1 := reg.1
  let hasSubscribed := reg.2
  let st2 :=
    if !st1.isAlreadyInstalled then { st1 with isAlreadyInstalled := true }
    else { st1 with inspectorRefreshes := st1.inspectorRefreshes + 2 }
  if hasSubscribed then st2
  else
    { st2 with
        subscribed := st2.subscribed ++ [store.id]
        inspectorRefreshes := st2.inspectorRefreshes + 1
        toasts := st2.toasts ++
          [toastMessage ("\"" ++ store.id ++ "\" store installed") none] }

/-- Outcome the host action-lifecycle contract reports for one invocation:
exactly one of the `after` / `onError` hooks fires. -/
inductive ActionOutcome where
  | success (result : JsValue)
  | failure (error : JsValue)
deriving DecidableEq, Repr

/-- One action invocation on `store`, as observed through the `$onAction`
subscription (part_000 lines 200-251).  If the bridge never installed that
subscription for this store, nothing happens.  Otherwise the callback draws a
fresh correlation id (`runningActionId++`), emits the "start" event, and the
one hook the host fires emits the matching "end" event with the same group
id. -/
def invokeAction (store : StoreData) (name : String) (args : List JsValue)
    (outcome : ActionOutcome) (st : BridgeState) : BridgeState :=
  if store.id ∈ st.subscribed then
    let groupId := st.runningActionId
    let st1 := { st with runningActionId := st.runningActionId + 1 }
    let startEv : TimelineEvent :=
      { layerId := MUTATIONS_LAYER_ID
        title := "🛫 " ++ name
        subtitle := some "start"
        logType := none
        data := EventData.actionStart name args
        groupId := some groupId }
    let st2 := { st1 with timeline := st1.timeline ++ [startEv] }
    match outcome with
    | ActionOutcome.success r =>
        { st2 with timeline := st2.timeline ++
            [{ layerId := MUTATIONS_LAYER_ID
               title := "🛬 " ++ name
               subtitle := some "end"
               logType := none
               data := EventData.actionEnd name args r
               groupId := some groupId }] }
    | ActionOutcome.failure e =>
        { st2 with timeline := st2.timeline ++
            [{ layerId := MUTATIONS_LAYER_ID
               title := "💥 " ++ name
               subtitle := some "end"
               logType := some "error"
               data := EventData.actionError name args e
               groupId := some groupId }] }
  else st

/-- Modelled from the spec: `formatMutationType` lives in the formatting
module, which is absent from the sources; it derives a display title from the
mutation kind. -/
def formatMutationType (t : MutationType) : String :=
  match t with
  | MutationType.direct => "mutation"
  | MutationType.patchObject => "patch object"
  | MutationType.patchFunction => "patch function"

/-- The `$subscribe` mutation callback (part_000 lines 253-293).  When the
timeline is inactive it returns before doing anything; otherwise it pushes a
component update and an inspector-state resend, builds the event with
`groupId` read from the `activeAction` slot, clears the slot, picks the
subtitle by mutation kind (function patch, object patch, else the single raw
event's type), and appends the event to the timeline. -/
def mutationCallback (mtype : MutationType) (events : Option MutEvents)
    (st : BridgeState) : BridgeState :=
  if !st.isTimelineActive then st
  else
    let eventGroupId := st.activeAction
    let st1 := { st with
      activeAction := none
      inspectorRefreshes := st.inspectorRefreshes + 2 }
    let subtitle :=
      if mtype = MutationType.patchFunction then some "⤵️"
      else if mtype = MutationType.patchObject then some "🧩"
      else
        match events with
        | some (MutEvents.single e) => some e.etype
        | _ => none
    let ev : TimelineEvent :=
      { layerId := MUTATIONS_LAYER_ID
        title := formatMutationType mtype
        subtitle := subtitle
        logType := none
        data := EventData.mutation events
        groupId := eventGroupId }
    { st1 with timeline := st1.timeline ++ [ev] }

/-- A node of the inspector tree. -/
structure TreeNode where
  id : String
  label : String
deriving DecidableEq, Repr

/-- Modelled from the spec: `formatStoreForInspectorTree` lives in the
formatting module, which is absent from the sources; per the spec each tree
node carries the store's id and a display label derived from the store. -/
def formatStoreForInspectorTree (store : StoreData) : TreeNode :=
  { id := store.id, label := store.id }

/-- The `getInspectorTree` handler (part_000 lines 104-118), for a request on
the matching app and inspector id.  JavaScript truthiness on
`payload.filter`: the empty string counts as "no filter". -/
def getInspectorTree (st : BridgeState) (filter : String) : List TreeNode :=
  let stores := st.registeredStores.map Prod.snd
  (if filter ≠ "" then
      stores.filter
        (fun store => jsIncludes (jsToLower store.id) (jsToLower filter))
    else stores).map formatStoreForInspectorTree

/-- Modelled from the spec: `formatStoreForInspectorState` lives in the
formatting module, which is absent from the sources; it projects the store's
configuration/state for display. -/
structure InspectorState where
  storeId : String
  state : List (String × JsValue)
deriving DecidableEq, Repr

/-- Modelled from the spec: the display projection of a registered store. -/
def formatStoreForInspectorState (store : StoreData) : InspectorState :=
  { storeId := store.id, state := store.state }

/-- `payload.state` as the `getInspectorState` handler assigns it
(part_000 lines 131-135). -/
structure InspectorPayloadState where
  options : InspectorState
deriving DecidableEq, Repr

/-- The `getInspectorState` handler (part_000 lines 120-137), for a request on
the matching app and inspector id.  Returns the `payload.state` assignment
(if any) and the toasts emitted.  The handler is a total function: no branch
raises. -/
def getInspectorState (st : BridgeState) (nodeId : String) :
    Option InspectorPayloadState × List Toast :=
  match alookup st.registeredStores nodeId with
  | none =>
      (none,
        [toastMessage ("store \"" ++ nodeId ++ "\" not found") (some TType.error)])
  | some store =>
      (some { options := formatStoreForInspectorState store }, [])

/-- Modelled from the spec: the host-provided deep setter
`payload.set(store, path, value)`.  The handler only ever calls it with a
path whose head was rewritten to `"$state"`, so the model addresses the
store's root state and writes the remaining path's key there (the claims only
exercise paths of depth two). -/
def hostSet (store : StoreData) (path : List String) (value : JsValue) :
    StoreData :=
  match path with
  | "$state" :: key :: _ => { store with state := aset store.state key value }
  | _ => store

/-- The `editInspectorState` handler (part_000 lines 139-164), for a request
on the matching app and inspector id.  Unknown store: error toast.  First
path segment other than `"state"`: toast with no severity argument and no
write.  Otherwise the first segment is rewritten to `"$state"`, the
timeline-active flag is set to `false`, the host setter applies the value —
the reactive write fires the store's mutation subscription, if the bridge
installed one — and the flag is set back to `true`. -/
def editInspectorState (st : BridgeState) (nodeId : String)
    (path : List String) (value : JsValue) : BridgeState :=
  match alookup st.registeredStores nodeId with
  | none =>
      { st with toasts := st.toasts ++
          [toastMessage ("store \"" ++ nodeId ++ "\" not found")
            (some TType.error)] }
  | some store =>
      if path.head? ≠ some "state" then
        { st with toasts := st.toasts ++
            [toastMessage
              ("Invalid path for store \"" ++ nodeId ++ "\":\n" ++
                String.intercalate "," path ++ "\nOnly state can be modified.")
              none] }
      else
        let newPath := "$state" :: path.tail
        let st1 := { st with isTimelineActive := false }
        let store' := hostSet store newPath value
        let st2 := { st1 with
          registeredStores := aset st1.registeredStores nodeId store' }
        let st3 :=
          if store.id ∈ st2.subscribed then
            mutationCallback MutationType.direct
              (some (MutEvents.single { etype := "set" })) st2
          else st2
        { st3 with isTimelineActive := true }

/-- The `get` trap of the tracking proxy built inside a wrapped action
(part_000 lines 334-337): every property read through the proxy stores the
captured correlation id in the process-wide `activeAction` slot. -/
def proxyGet (actionId : Nat) (st : BridgeState) : BridgeState :=
  { st with activeAction := some actionId }

/-- The `set` trap of the tracking proxy (part_000 lines 338-341): every
property write through the proxy stores the captured correlation id in the
process-wide `activeAction` slot. -/
def proxySet (actionId : Nat) (st : BridgeState) : BridgeState :=
  { st with activeAction := some actionId }

/-- The receiver an action body runs against: either the plain store or the
tracking proxy a wrapped action builds, the latter carrying the correlation
id it was captured with. -/
inductive ThisObj where
  | plain
  | tracked (actionId : Nat)
deriving DecidableEq, Repr

/-- An action as stored on the store object: a function of its receiver and
its argument list. -/
def Action : Type := ThisObj → List JsValue → JsValue

/-- The slice of `PiniaPluginContext` that `devtoolsPlugin` reads: the keys of
`options.actions` and the store object's members of those names. -/
structure PluginContext where
  optionsActions : List String
  store : String → Action

/-- The snapshot `devtoolsPlugin` takes of the store's declared actions
(part_000 lines 318-325): one entry per key of `options.actions`, holding
`store[actionName]`. -/
def pluginActionSnapshot (ctx : PluginContext) : List (String × Action) :=
  ctx.optionsActions.map (fun name => (name, ctx.store name))

/-- A wrapped action (part_000 lines 329-347): it re-activates the pinia
context, captures the current `runningActionId`, builds the tracking proxy
over the store, and applies the snapshot action to that proxy with the
original `arguments`.  The captured id is a parameter here because the source
reads the process-wide counter at call time. -/
def wrappedAction (orig : Action) (runningId : Nat) (args : List JsValue) :
    JsValue :=
  let actionId := runningId
  orig (ThisObj.tracked actionId) args

/-- The `wrappedActions` object `devtoolsPlugin` returns (part_000 lines
315-356): one wrapper per declared action name. -/
def devtoolsPluginWrapped (ctx : PluginContext) :
    List (String × (Nat → List JsValue → JsValue)) :=
  (pluginActionSnapshot ctx).map
    (fun entry => (entry.1, wrappedAction entry.2))

namespace MapHelpers

/-- A store definition (`useStore`): the fixed `$id` and, modelled from the
spec, the initial state the out-of-scope store factory creates when first
called for that id (store creation itself is the host framework's job). -/
structure StoreDef where
  id : String
  initState : List (String × JsValue)
deriving DecidableEq, Repr

/-- A component instance as the helpers see it: the `_pStores` property bag,
absent until first used, mapping store ids to the cached store (stores being
identified by id, the cache keeps the ids). -/
structure Vm where
  pStores : Option (List String)
deriving DecidableEq, Repr

/-- The world a helper closure runs in: the calling component instance and
the per-id store instances (id to `$state`), the latter standing for the
store objects the factory hands out by reference. -/
structure World where
  vm : Vm
  heap : List (String × List (String × JsValue))
deriving DecidableEq, Repr

/-- Modelled from the spec: calling the store factory
(`useStore(vm.$pinia)`) returns the store for its id, creating it with its
initial state when it does not exist yet. -/
def callFactory (useStore : StoreDef) (w : World) : World :=
  match alookup w.heap useStore.id with
  | some _ => w
  | none => { w with heap := w.heap ++ [(useStore.id, useStore.initState)] }

/-- `getCachedStore(vm, useStore)` (mapHelpers.ts lines 52-64): take the
`_pStores` bag (creating it when absent), and return the cached store for
`useStore.$id`, invoking the factory and caching the result on a miss.  The
returned id names the store instance in the heap. -/
def getCachedStore (useStore : StoreDef) (w : World) : String × World :=
  let cache := w.vm.pStores.getD []
  if useStore.id ∈ cache then
    (useStore.id, { w with vm := { pStores := some cache } })
  else
    let w1 := callFactory useStore w
    (useStore.id,
      { w1 with vm := { pStores := some (cache ++ [useStore.id]) } })

/-- The process-wide map-helpers state: the single mutable variable
`mapStoreSuffix` (mapHelpers.ts line 66). -/
structure HelperState where
  mapStoreSuffix : String
deriving DecidableEq, Repr

/-- The state at module load: suffix `"Store"`. -/
def initHelperState : HelperState := { mapStoreSuffix := "Store" }

/-- `setMapStoreSuffix(suffix)` (mapHelpers.ts lines 75-81). -/
def setMapStoreSuffix (suffix : String) (st : HelperState) : HelperState :=
  { st with mapStoreSuffix := suffix }

/-- The accessor `mapStores` builds for one factory: a closure over
`useStore` that, evaluated on an instance, returns the cached store
(mapHelpers.ts lines 122-124). -/
structure StoreAccessor where
  useStore : StoreDef
deriving DecidableEq, Repr

/-- Evaluating a `mapStores` accessor on a component instance. -/
def StoreAccessor.eval (a : StoreAccessor) (w : World) : String × World :=
  getCachedStore a.useStore w

/-- `mapStores(...stores)` (mapHelpers.ts lines 105-127), after the dev-only
array-unwrapping shim (which the typed embedding cannot express): the reduce
assigns, for each factory, one property keyed `useStore.$id + mapStoreSuffix`
holding the cached-store accessor. -/
def mapStores (stores : List StoreDef) (st : HelperState) :
    List (String × StoreAccessor) :=
  stores.foldl
    (fun reduced useStore =>
      aset reduced (useStore.id ++ st.mapStoreSuffix)
        { useStore := useStore })
    []

/-- Write `value` to key `key` of the store instance named `sid`, the way a
JavaScript property write on the shared store object updates it in place. -/
def heapWrite (heap : List (String × List (String × JsValue)))
    (sid key : String) (value : JsValue) :
    List (String × List (String × JsValue)) :=
  aset heap sid (aset ((alookup heap sid).getD []) key value)

/-- The `get` member of a `mapWritableState` pair for `key` (mapHelpers.ts
lines 485-487): read `key` off the cached store. -/
def mwsGet (useStore : StoreDef) (key : String) (w : World) :
    Option JsValue × World :=
  let res := getCachedStore useStore w
  ((alookup res.2.heap res.1).bind (fun s => alookup s key), res.2)

/-- The `set` member of a `mapWritableState` pair for `key` (mapHelpers.ts
lines 488-491): write the value to `key` on the cached store. -/
def mwsSet (useStore : StoreDef) (key : String) (value : JsValue)
    (w : World) : World :=
  let res := getCachedStore useStore w
  { res.2 with heap := heapWrite res.2.heap res.1 key value }

end MapHelpers

/-- A sequence of `addDevtools` registration calls, run left to right. -/
def runCalls (calls : List StoreData) (st : BridgeState) : BridgeState :=
  match calls with
  | [] => st
  | c :: rest => runCalls rest (addDevtools c st)

/-- A small concrete store used by the closed theorems below. -/
def demoStore : StoreData := { id := "counter", state := [("count", JsValue.num 0)] }

/-- A bridge state with `demoStore` registered and — for the sake of the
suppression theorems — its mutation subscription installed. -/
def demoEditState : BridgeState :=
  { initialBridgeState with
      registeredStores := [("counter", demoStore)]
      subscribed := ["counter"] }

/-- A bridge state with two registered stores whose ids differ in case,
used to exercise the case-insensitive tree filter. -/
def demoTreeState : BridgeState :=
  { initialBridgeState with
      registeredStores :=
        [("Counter", { id := "Counter", state := [] }),
          ("cart", { id := "cart", state := [] })] }

/-- A concrete plugin context with one declared action whose result records
the correlation id of the tracking proxy it ran against. -/
def demoCtx : PluginContext :=
  { optionsActions := ["increment"]
    store := fun _ => fun receiver _ =>
      match receiver with
      | ThisObj.tracked i => JsValue.num (Int.ofNat i)
      | ThisObj.plain => JsValue.null }

/-- Two concrete store factories for the map-helper theorems. -/
def fooDef : MapHelpers.StoreDef := { id := "foo", initState := [("n", JsValue.num 1)] }

/-- See `fooDef`. -/
def barDef : MapHelpers.StoreDef := { id := "bar", initState := [("n", JsValue.num 2)] }

/-- A fresh component-instance world: no `_pStores` bag, empty heap. -/
def demoWorld : MapHelpers.World := { vm := { pStores := none }, heap := [] }

end Pinia

namespace Pinia

/- ### Helper lemmas (shared) -/

theorem alookup_aset_self {α : Type} (l : List (String × α)) (k : String)
    (v : α) : alookup (aset l k v) k = some v := by
  induction l with
  | nil => simp [aset, alookup]
  | cons hd tl ih =>
    by_cases h : hd.1 = k
    · simp [aset, alookup, h]
    · simp [aset, alookup, h, ih]

theorem alookup_aset_ne {α : Type} (l : List (String × α)) (k k' : String)
    (v : α) (h : k ≠ k') : alookup (aset l k v) k' = alookup l k' := by
  induction l with
  | nil => simp [aset, alookup, h]
  | cons hd tl ih =>
    by_cases hh : hd.1 = k
    · simp [aset, alookup, hh, h]
    · simp [aset, alookup, hh, ih]

theorem alookup_isSome_iff {α : Type} (l : List (String × α)) (k : String) :
    (alookup l k).isSome = true ↔ k ∈ l.map Prod.fst := by
  induction l with
  | nil => simp [alookup]
  | cons hd tl ih =>
    by_cases h : hd.1 = k
    · simp [alookup, h]
    · simp [alookup, h, ih, Ne.symm h]

theorem alookup_map_of_nodup {α β : Type} (key : α → String) (val : α → β)
    (l : List α) (x : α) (hnd : (l.map key).Nodup) (hx : x ∈ l) :
    alookup (l.map (fun a => (key a, val a))) (key x) = some (val x) := by
  induction l with
  | nil => cases hx
  | cons a as ih =>
    simp only [List.map_cons, List.nodup_cons] at hnd
    rcases List.mem_cons.mp hx with rfl | hmem
    · simp [alookup]
    · by_cases h : key a = key x
      · exfalso
        exact hnd.1 (h ▸ List.mem_map_of_mem key hmem)
      · simpa [alookup, h] using ih hnd.2 hmem

theorem aset_append_of_not_mem {α : Type} (l : List (String × α))
    (k : String) (v : α) (h : k ∉ l.map Prod.fst) :
    aset l k v = l ++ [(k, v)] := by
  induction l with
  | nil => simp [aset]
  | cons hd tl ih =>
    simp only [List.map_cons, List.mem_cons] at h
    push_neg at h
    simp [aset, Ne.symm h.1, ih h.2]

theorem startsWithL_iff (sub hay : List Char) :
    startsWithL sub hay = true ↔ ∃ rest, hay = sub ++ rest := by
  induction sub generalizing hay with
  | nil => simp [startsWithL]
  | cons a as ih =>
    cases hay with
    | nil =>
      simp only [startsWithL, List.cons_append]
      constructor
      · intro h; cases h
      · rintro ⟨rest, h⟩; cases h
    | cons b bs =>
      simp only [startsWithL, Bool.and_eq_true, decide_eq_true_eq, ih,
        List.cons_append]
      constructor
      · rintro ⟨rfl, rest, rfl⟩; exact ⟨rest, rfl⟩
      · rintro ⟨rest, h⟩
        injection h with h1 h2
        exact ⟨h1.symm, rest, h2⟩

theorem includesL_iff (hay sub : List Char) :
    includesL hay sub = true ↔ ∃ pre post, hay = pre ++ (sub ++ post) := by
  induction hay with
  | nil =>
    simp only [includesL, startsWithL_iff]
    constructor
    · rintro ⟨rest, h⟩
      exact ⟨[], rest, by simpa using h⟩
    · rintro ⟨pre, post, h⟩
      rcases List.append_eq_nil.mp h.symm with ⟨rfl, h2⟩
      rcases List.append_eq_nil.mp h2 with ⟨rfl, rfl⟩
      exact ⟨[], rfl⟩
  | cons a rest ih =>
    simp only [includesL, Bool.or_eq_true, startsWithL_iff, ih]
    constructor
    · rintro (⟨r, hr⟩ | ⟨pre, post, h⟩)
      · exact ⟨[], r, by simpa using hr⟩
      · exact ⟨a :: pre, post, by simp [h]⟩
    · rintro ⟨pre, post, h⟩
      cases pre with
      | nil => exact Or.inl ⟨post, by simpa using h⟩
      | cons p ps =>
        injection h with h1 h2
        exact Or.inr ⟨ps, post, h2⟩

theorem includesL_append_right (pre sub : List Char) :
    includesL (pre ++ sub) sub = true := by
  rw [includesL_iff]
  exact ⟨pre, [], by simp⟩

/- ### Bridge registration lemmas (shared) -/

theorem addDevtools_subscribed_eq (s : StoreData) (st : BridgeState) :
    (addDevtools s st).subscribed = st.subscribed := by
  unfold addDevtools
  by_cases h : (alookup st.registeredStores s.id).isSome <;>
    by_cases h2 : st.isAlreadyInstalled <;>
      simp [h, h2]

theorem addDevtools_registeredStores (s : StoreData) (st : BridgeState) :
    (addDevtools s st).registeredStores =
      if (alookup st.registeredStores s.id).isSome then st.registeredStores
      else st.registeredStores ++ [(s.id, s)] := by
  unfold addDevtools
  by_cases h : (alookup st.registeredStores s.id).isSome <;>
    by_cases h2 : st.isAlreadyInstalled <;>
      simp [h, h2]

theorem runCalls_registers (calls : List StoreData) (st : BridgeState)
    (hnd : (st.registeredStores.map Prod.fst).Nodup) :
    ((runCalls calls st).registeredStores.map Prod.fst).Nodup ∧
    (∀ id, id ∈ st.registeredStores.map Prod.fst →
      id ∈ (runCalls calls st).registeredStores.map Prod.fst) ∧
    (∀ s ∈ calls,
      s.id ∈ (runCalls calls st).registeredStores.map Prod.fst) ∧
    (runCalls calls st).subscribed = st.subscribed := by
  induction calls generalizing st with
  | nil =>
    exact ⟨hnd, fun _ h => h, fun s h => absurd h (List.not_mem_nil s), rfl⟩
  | cons c cs ih =>
    have hkeys := addDevtools_registeredStores c st
    by_cases h : (alookup st.registeredStores c.id).isSome
    · have hkeys' : (addDevtools c st).registeredStores = st.registeredStores := by
        rw [hkeys, if_pos h]
      obtain ⟨ihnd, ihmono, ihall, ihsub⟩ :=
        ih (addDevtools c st) (by rw [hkeys']; exact hnd)
      refine ⟨ihnd, ?_, ?_, ?_⟩
      · intro id hid
        exact ihmono id (by rw [hkeys']; exact hid)
      · intro s hs
        rcases List.mem_cons.mp hs with rfl | hmem
        · exact ihmono s.id
            (by rw [hkeys']; exact (alookup_isSome_iff _ _).mp h)
        · exact ihall s hmem
      · simp only [runCalls]
        rw [ihsub, addDevtools_subscribed_eq]
    · have hnotmem : c.id ∉ st.registeredStores.map Prod.fst := by
        intro hc
        exact h ((alookup_isSome_iff _ _).mpr hc)
      have hkeys' : (addDevtools c st).registeredStores =
          st.registeredStores ++ [(c.id, c)] := by
        rw [hkeys, if_neg h]
      have hnd' : ((addDevtools c st).registeredStores.map Prod.fst).Nodup := by
        rw [hkeys']
        simp only [List.map_append, List.map_cons, List.map_nil]
        exact List.Nodup.append hnd (List.nodup_singleton c.id)
          (by simpa [List.disjoint_singleton] using hnotmem)
      obtain ⟨ihnd, ihmono, ihall, ihsub⟩ := ih (addDevtools c st) hnd'
      refine ⟨ihnd, ?_, ?_, ?_⟩
      · intro id hid
        exact ihmono id (by rw [hkeys']; simp [hid])
      · intro s hs
        rcases List.mem_cons.mp hs with rfl | hmem
        · exact ihmono s.id (by rw [hkeys']; simp)
        · exact ihall s hmem
      · simp only [runCalls]
        rw [ihsub, addDevtools_subscribed_eq]

end Pinia

namespace Pinia

/- ### Additional shared lemmas -/

theorem getLast?_append_singleton {α : Type} (l : List α) (a : α) :
    (l ++ [a]).getLast? = some a := by
  simp

theorem alookup_map_key {α : Type} (f : String → α) (names : List String)
    (name : String) :
    alookup (names.map (fun n => (n, f n))) name =
      if name ∈ names then some (f name) else none := by
  induction names with
  | nil => simp [alookup]
  | cons n ns ih =>
    by_cases h : n = name
    · subst h; simp [alookup]
    · simp [alookup, h, ih, Ne.symm h]

/- ### Claim theorems -/

/-- C1 (code bug): the claim — and the source's own comment "avoid
subscribing to mutations and actions twice" — require one "start" timeline
event per action invocation on a devtools-registered store.  The code
initialises `hasSubscribed` to `true` (line 36) and assigns `true` to it
again in the first-registration branch (line 40), so `if (hasSubscribed)
return` (line 198) always returns before `store.$onAction` is installed: at
the concrete failing input (register a fresh store, invoke one action) the
start-event count is 0, not 1, and the subscription set is empty. -/
theorem claim_C1_code_bug_no_start_events :
    ((invokeAction demoStore "increment" []
        (ActionOutcome.success (JsValue.num 1))
        (addDevtools demoStore initialBridgeState)).timeline.filter
      (fun e => e.subtitle = some "start")).length = 0 ∧
    (addDevtools demoStore initialBridgeState).subscribed = [] := by
  decide

/-- C2: over any sequence of `addDevtools` calls that includes a given store,
the registry ends with exactly one entry for that store's id, and the
mutation/action subscriptions for that id are installed at most once (the
`hasSubscribed` guard in fact installs them zero times, which satisfies the
bound). -/
theorem claim_C2_registry_single_entry (calls : List StoreData)
    (store : StoreData) (hmem : store ∈ calls) :
    ((runCalls calls initialBridgeState).registeredStores.map Prod.fst).count
        store.id = 1 ∧
    (runCalls calls initialBridgeState).subscribed.count store.id ≤ 1 := by
  obtain ⟨hnd, -, hall, hsub⟩ :=
    runCalls_registers calls initialBridgeState (by simp [initialBridgeState])
  refine ⟨List.count_eq_one_of_mem hnd (hall store hmem), ?_⟩
  rw [hsub]
  simp [initialBridgeState]

/-- C2 witness: registering the same store twice leaves one registry entry
and at most one subscription. -/
theorem claim_C2_witness :
    ((runCalls [demoStore, demoStore]
        initialBridgeState).registeredStores.map Prod.fst).count
        demoStore.id = 1 ∧
    (runCalls [demoStore, demoStore]
        initialBridgeState).subscribed.count demoStore.id ≤ 1 :=
  claim_C2_registry_single_entry [demoStore, demoStore] demoStore
    (List.mem_cons_self demoStore [demoStore])

/-- C6: a mutation timeline event's group id is the value of the
process-wide `activeAction` slot at emission time; emitting clears the slot,
so a second mutation event without a fresh tracked access carries no group
id; and the tracking proxy's `get`/`set` traps store the captured correlation
id in the slot on every property access. -/
theorem claim_C6_active_action_slot (st : BridgeState)
    (mtype mtype' : MutationType) (events events' : Option MutEvents)
    (aid : Nat) (h : st.isTimelineActive = true) :
    ((mutationCallback mtype events st).timeline.getLast?).map
        TimelineEvent.groupId = some st.activeAction ∧
    (mutationCallback mtype events st).timeline.length =
      st.timeline.length + 1 ∧
    (mutationCallback mtype events st).activeAction = none ∧
    ((mutationCallback mtype' events'
        (mutationCallback mtype events st)).timeline.getLast?).map
        TimelineEvent.groupId = some none ∧
    (proxyGet aid st).activeAction = some aid ∧
    (proxySet aid st).activeAction = some aid := by
  constructor
  · simp [mutationCallback, h, getLast?_append_singleton]
  constructor
  · simp [mutationCallback, h]
  constructor
  · simp [mutationCallback, h]
  constructor
  · simp [mutationCallback, h, getLast?_append_singleton]
  exact ⟨rfl, rfl⟩

/-- C6 witness: a concrete emission reads the slot, clears it, and a proxy
access sets it. -/
theorem claim_C6_witness :
    demoEditState.isTimelineActive = true ∧
    (mutationCallback MutationType.direct
        (some (MutEvents.single { etype := "set" }))
        demoEditState).activeAction = none ∧
    (proxyGet 7 demoEditState).activeAction = some 7 :=
  ⟨rfl,
    (claim_C6_active_action_slot demoEditState MutationType.direct
        MutationType.direct (some (MutEvents.single { etype := "set" }))
        none 7 rfl).2.2.1,
    (claim_C6_active_action_slot demoEditState MutationType.direct
        MutationType.direct (some (MutEvents.single { etype := "set" }))
        none 7 rfl).2.2.2.2.1⟩

/-- C10: for every action name declared in `options.actions`, the wrapper
`devtoolsPlugin` installs returns exactly what the snapshotted original
action returns when applied to the tracking proxy with the unchanged
argument list; names not declared in the options are not wrapped. -/
theorem claim_C10_wrapper_transparent (ctx : PluginContext) (name : String) :
    (name ∈ ctx.optionsActions →
      ∃ w, alookup (devtoolsPluginWrapped ctx) name = some w ∧
        ∀ rid args, w rid args =
          ctx.store name (ThisObj.tracked rid) args) ∧
    (name ∉ ctx.optionsActions →
      alookup (devtoolsPluginWrapped ctx) name = none) := by
  have hrw : devtoolsPluginWrapped ctx =
      ctx.optionsActions.map
        (fun n => (n, wrappedAction (ctx.store n))) := by
    simp [devtoolsPluginWrapped, pluginActionSnapshot, List.map_map]
  constructor
  · intro hmem
    refine ⟨wrappedAction (ctx.store name), ?_, fun rid args => rfl⟩
    rw [hrw, alookup_map_key]
    simp [hmem]
  · intro hn
    rw [hrw, alookup_map_key]
    simp [hn]

/-- C3: an edit-inspector-state request whose path starts with `"state"` on
a registered store remaps the head segment to the store's root state
reference (`$state`) and applies the value through the host setter; no
mutation timeline event is emitted for the write — the timeline-active flag
is `false` while the setter runs, so the mutation subscription's callback
returns early even when it is installed — and the flag is set back to `true`
afterwards.  The theorem quantifies over arbitrary bridge states, including
those whose `subscribed` set contains the store. -/
theorem claim_C3_edit_state_suppressed (st : BridgeState) (nodeId : String)
    (rest : List String) (value : JsValue) (store : StoreData)
    (hs : alookup st.registeredStores nodeId = some store) :
    (editInspectorState st nodeId ("state" :: rest) value).timeline =
      st.timeline ∧
    (editInspectorState st nodeId ("state" :: rest) value).isTimelineActive =
      true ∧
    (editInspectorState st nodeId ("state" :: rest) value).toasts =
      st.toasts ∧
    alookup (editInspectorState st nodeId
        ("state" :: rest) value).registeredStores nodeId =
      some (hostSet store ("$state" :: rest) value) := by
  unfold editInspectorState
  rw [hs]
  by_cases hmem : store.id ∈ st.subscribed <;>
    simp [hmem, mutationCallback, alookup_aset_self]

/-- C3 witness: editing `["state", "count"]` on the registered (and
subscribed) demo store updates the state key, leaves the timeline untouched
and restores the flag. -/
theorem claim_C3_witness :
    alookup demoEditState.registeredStores "counter" = some demoStore ∧
    (editInspectorState demoEditState "counter" ["state", "count"]
        (JsValue.num 5)).timeline = demoEditState.timeline ∧
    (editInspectorState demoEditState "counter" ["state", "count"]
        (JsValue.num 5)).isTimelineActive = true ∧
    (editInspectorState demoEditState "counter" ["state", "count"]
        (JsValue.num 5)).toasts = demoEditState.toasts ∧
    alookup (editInspectorState demoEditState "counter" ["state", "count"]
        (JsValue.num 5)).registeredStores "counter" =
      some (hostSet demoStore ["$state", "count"] (JsValue.num 5)) :=
  ⟨by decide,
    claim_C3_edit_state_suppressed demoEditState "counter" ["count"]
      (JsValue.num 5) demoStore (by decide)⟩

/-- C4 (amended): an edit-inspector-state request whose first path segment
is not `"state"` is rejected: a message is reported through the toast/log
channel with the default (no-severity, normal) channel — the call site
passes no severity argument — the host setter is never invoked, and the
registry (hence the store's state) is unchanged. -/
theorem claim_C4_invalid_path_rejected (st : BridgeState) (nodeId : String)
    (path : List String) (value : JsValue) (store : StoreData)
    (hs : alookup st.registeredStores nodeId = some store)
    (hp : path.head? ≠ some "state") :
    (editInspectorState st nodeId path value).registeredStores =
      st.registeredStores ∧
    (editInspectorState st nodeId path value).timeline = st.timeline ∧
    (editInspectorState st nodeId path value).toasts =
      st.toasts ++
        [toastMessage ("Invalid path for store \"" ++ nodeId ++ "\":\n" ++
          String.intercalate "," path ++ "\nOnly state can be modified.")
          none] := by
  unfold editInspectorState
  rw [hs]
  simp [hp]

/-- C4 counterexample: the claim states the invalid-path report carries
warning severity.  At this concrete request the handler emits exactly one
toast and its severity is `none` (the plain log channel), not `warning`:
the call at part_000 line 152 passes no severity argument. -/
theorem claim_C4_counterexample :
    ((editInspectorState demoEditState "counter" ["options", "foo"]
        (JsValue.num 5)).toasts.map Toast.ttype = [none]) ∧
    (∀ t ∈ (editInspectorState demoEditState "counter" ["options", "foo"]
        (JsValue.num 5)).toasts, t.ttype ≠ some TType.warning) := by
  decide

/-- C4 witness: a concrete rejected edit leaves registry and timeline
unchanged and appends the severity-less toast. -/
theorem claim_C4_witness :
    (alookup demoEditState.registeredStores "counter" = some demoStore) ∧
    ((["options", "foo"] : List String).head? ≠ some "state") ∧
    (editInspectorState demoEditState "counter" ["options", "foo"]
        (JsValue.num 5)).registeredStores =
      demoEditState.registeredStores ∧
    (editInspectorState demoEditState "counter" ["options", "foo"]
        (JsValue.num 5)).timeline = demoEditState.timeline ∧
    (editInspectorState demoEditState "counter" ["options", "foo"]
        (JsValue.num 5)).toasts =
      demoEditState.toasts ++
        [toastMessage ("Invalid path for store \"counter\":\n" ++
          String.intercalate "," ["options", "foo"] ++
          "\nOnly state can be modified.") none] :=
  ⟨by decide, by decide,
    claim_C4_invalid_path_rejected demoEditState "counter"
      ["options", "foo"] (JsValue.num 5) demoStore (by decide) (by decide)⟩

/-- C5: a get-inspector-state request for an unregistered node id reports a
toast with error severity whose message contains "not found" and leaves the
payload state unset; for a registered id the payload state is set from that
store.  The handler is a total function, so no exception reaches the caller
in either case. -/
theorem claim_C5_get_inspector_state (st : BridgeState) (nodeId : String) :
    (alookup st.registeredStores nodeId = none →
      (getInspectorState st nodeId).1 = none ∧
      ∃ t : Toast, (getInspectorState st nodeId).2 = [t] ∧
        t.ttype = some TType.error ∧
        includesL t.message.data "not found".data = true) ∧
    (∀ store, alookup st.registeredStores nodeId = some store →
      getInspectorState st nodeId =
        (some { options := formatStoreForInspectorState store }, [])) := by
  constructor
  · intro h
    have hout : getInspectorState st nodeId =
        (none, [toastMessage ("store \"" ++ nodeId ++ "\" not found")
          (some TType.error)]) := by
      simp [getInspectorState, h]
    rw [hout]
    refine ⟨rfl, ⟨_, rfl, rfl, ?_⟩⟩
    show includesL
      ("🍍 " ++ ("store \"" ++ nodeId ++ "\" not found")).data
      "not found".data = true
    rw [includesL_iff]
    refine ⟨"🍍 ".data ++ "store \"".data ++ nodeId.data ++
      ("\" " : String).data, [], ?_⟩
    have hsplit : ("\" not found" : String).data =
        ("\" " : String).data ++ ("not found" : String).data := by decide
    simp [String.data_append, hsplit, List.append_assoc]
  · intro store h
    simp [getInspectorState, h]

/-- C5 witness: a lookup for an id absent from the demo registry reports the
error toast and sets nothing; the registered id returns the formatted
store. -/
theorem claim_C5_witness :
    (alookup demoEditState.registeredStores "ghost" = none) ∧
    (getInspectorState demoEditState "ghost").1 = none ∧
    (alookup demoEditState.registeredStores "counter" = some demoStore) ∧
    getInspectorState demoEditState "counter" =
      (some { options := formatStoreForInspectorState demoStore }, []) :=
  ⟨by decide,
    ((claim_C5_get_inspector_state demoEditState "ghost").1 (by decide)).1,
    by decide,
    (claim_C5_get_inspector_state demoEditState "counter").2 demoStore
      (by decide)⟩

/-- C8: with a non-empty filter the inspector tree is exactly the registered
stores whose id contains the filter as a case-insensitive contiguous
substring (the lowercased-`includes` predicate is characterised as substring
containment), each formatted into its tree node; with no filter (the empty
string, which JavaScript treats as falsy) every registered store is
returned. -/
theorem claim_C8_tree_filter (st : BridgeState) (filterStr : String) :
    (filterStr ≠ "" →
      getInspectorTree st filterStr =
        ((st.registeredStores.map Prod.snd).filter
          (fun s => jsIncludes (jsToLower s.id) (jsToLower filterStr))).map
          formatStoreForInspectorTree ∧
      ∀ s : StoreData,
        jsIncludes (jsToLower s.id) (jsToLower filterStr) = true ↔
          ∃ pre post, (jsToLower s.id).data =
            pre ++ ((jsToLower filterStr).data ++ post)) ∧
    (filterStr = "" →
      getInspectorTree st filterStr =
        (st.registeredStores.map Prod.snd).map
          formatStoreForInspectorTree) := by
  constructor
  · intro h
    exact ⟨by simp [getInspectorTree, h],
      fun s => by rw [jsIncludes, includesL_iff]⟩
  · intro h
    simp [getInspectorTree, h]

/-- C8 witness: filtering the demo registry (ids `Counter` and `cart`) with
`"TER"` matches `Counter` case-insensitively and excludes `cart`. -/
theorem claim_C8_witness :
    (("TER" : String) ≠ "") ∧
    (getInspectorTree demoTreeState "TER").map TreeNode.id = ["Counter"] := by
  refine ⟨by decide, ?_⟩
  have h := ((claim_C8_tree_filter demoTreeState "TER").1 (by decide)).1
  rw [h]
  decide

/-- C10 witness: the wrapper for the declared action `increment` forwards to
the original applied to the tracking proxy, and the undeclared name `reset`
is not wrapped. -/
theorem claim_C10_witness :
    (alookup (devtoolsPluginWrapped demoCtx) "increment").isSome = true ∧
    alookup (devtoolsPluginWrapped demoCtx) "reset" = none := by
  constructor
  · obtain ⟨w, hw, -⟩ :=
      (claim_C10_wrapper_transparent demoCtx "increment").1
        (by simp [demoCtx])
    rw [hw]; rfl
  · exact (claim_C10_wrapper_transparent demoCtx "reset").2 (by simp [demoCtx])

end Pinia

namespace Pinia

theorem foldl_aset_eq_append {α β : Type} (key : α → String) (val : α → β)
    (fs : List α) (acc : List (String × β))
    (hnd : (fs.map key).Nodup)
    (hdisj : ∀ f ∈ fs, key f ∉ acc.map Prod.fst) :
    fs.foldl (fun red f => aset red (key f) (val f)) acc =
      acc ++ fs.map (fun f => (key f, val f)) := by
  induction fs generalizing acc with
  | nil => simp
  | cons f fs ih =>
    simp only [List.map_cons, List.nodup_cons] at hnd
    have hstep : aset acc (key f) (val f) = acc ++ [(key f, val f)] :=
      aset_append_of_not_mem _ _ _ (hdisj f (List.mem_cons_self f fs))
    simp only [List.foldl_cons, hstep]
    rw [ih (acc ++ [(key f, val f)]) hnd.2]
    · simp
    · intro g hg
      simp only [List.map_append, List.mem_append, List.map_cons,
        List.map_nil, List.mem_singleton, not_or]
      refine ⟨hdisj g (List.mem_cons_of_mem f hg), ?_⟩
      intro hkey
      exact hnd.1 (hkey ▸ List.mem_map_of_mem key hg)

open MapHelpers in
/-- C7: `mapStores` returns one accessor per factory, keyed by the factory's
`$id` concatenated with the current process-wide suffix; the suffix defaults
to `"Store"`; `setMapStoreSuffix s` makes every subsequent `mapStores` call
use `s` (the empty string included, by instantiation); and each accessor,
evaluated on a component instance, returns the per-instance cached store for
its factory.  The no-duplicate-keys hypothesis reflects the data-model
invariant that store ids are unique. -/
theorem claim_C7_mapStores_accessors (factories : List StoreDef)
    (hst : HelperState) (suffix : String) (w : World)
    (hnd : (factories.map (fun f => f.id ++ hst.mapStoreSuffix)).Nodup) :
    mapStores factories hst =
      factories.map
        (fun f => (f.id ++ hst.mapStoreSuffix, { useStore := f })) ∧
    initHelperState.mapStoreSuffix = "Store" ∧
    (setMapStoreSuffix suffix hst).mapStoreSuffix = suffix ∧
    mapStores factories (setMapStoreSuffix suffix hst) =
      mapStores factories { mapStoreSuffix := suffix } ∧
    (∀ f ∈ factories,
      ∃ a : StoreAccessor,
        alookup (mapStores factories hst) (f.id ++ hst.mapStoreSuffix) =
          some a ∧ a.eval w = getCachedStore f w) := by
  have hmap : mapStores factories hst =
      factories.map
        (fun f => (f.id ++ hst.mapStoreSuffix, { useStore := f })) := by
    rw [mapStores, foldl_aset_eq_append
      (fun f => f.id ++ hst.mapStoreSuffix)
      (fun f => ({ useStore := f } : StoreAccessor)) factories [] hnd
      (by simp)]
    simp
  refine ⟨hmap, rfl, rfl, rfl, ?_⟩
  intro f hf
  refine ⟨{ useStore := f }, ?_, rfl⟩
  rw [hmap]
  exact alookup_map_of_nodup (fun g => g.id ++ hst.mapStoreSuffix)
    (fun g => ({ useStore := g } : StoreAccessor)) factories f hnd hf

open MapHelpers in
/-- C7 witness: with the default suffix the accessors are keyed `fooStore`
and `barStore`; after switching the suffix to the empty string a subsequent
call exposes `foo` and `bar`. -/
theorem claim_C7_witness :
    (([fooDef, barDef].map
        (fun f => f.id ++ initHelperState.mapStoreSuffix)).Nodup) ∧
    (mapStores [fooDef, barDef] initHelperState).map Prod.fst =
      ["fooStore", "barStore"] ∧
    (mapStores [fooDef, barDef]
        (MapHelpers.setMapStoreSuffix "" initHelperState)).map Prod.fst =
      ["foo", "bar"] := by
  refine ⟨by decide, ?_, ?_⟩
  · have h := (claim_C7_mapStores_accessors [fooDef, barDef]
      initHelperState "" demoWorld (by decide)).1
    rw [h]
    decide
  · have h := (claim_C7_mapStores_accessors [fooDef, barDef]
      (MapHelpers.setMapStoreSuffix "" initHelperState) ""
      demoWorld (by decide)).1
    rw [h]
    decide

open MapHelpers in
/-- C9: the get/set pair `mapWritableState` produces for a state key round
trips: `set value` writes the key on the per-instance cached store, and a
following `get` reads that value back from the same cached store, whatever
the starting cache and heap contents. -/
theorem claim_C9_writable_state_roundtrip (useStore : StoreDef)
    (key : String) (value : JsValue) (w : World) :
    (mwsGet useStore key (mwsSet useStore key value w)).1 = some value := by
  unfold mwsGet mwsSet getCachedStore callFactory heapWrite
  by_cases hc : useStore.id ∈ w.vm.pStores.getD []
  · simp [hc, alookup_aset_self]
  · cases hh : alookup w.heap useStore.id <;>
      simp [hc, hh, alookup_aset_self]

end Pinia
